import Mathlib

/-!
Verification of the option-parsing core of `tools.h` (namespace `options`).

The C++ source registers type-erased option handles in a process-wide map
`store<>::flags : map<string, option*>` and parses `argv` with a single
cursor loop (`options::parse`, tools.h lines 208-225):

    int i = 1;
    while(i < argc){
        if(argv[i][0] == '-'){
            const std::string opt = argv[i]+1;
            flag = store<>::flags.find(opt);
            if( flag != store<>::flags.end()){
                if(flag->second->parse() && i < argc-1){
                    ++i;
                    flag->second->parse(argv[i]);
                }
            }
            ++i;
        } else
            break;
    }
    return i;

Embedding choices:
  * The registry together with the bound variables is a finite association
    list `Registry = List (String × OptVal)`; `std::map` has unique keys and
    exact-match `find`, modelled by first-match lookup `findFlag`.  Mutating
    a bound variable through its handle is `updateReg`.
  * The four `typed_option` variants are the constructors of `OptVal`.
    The virtual `bool parse()` is `parseFlagOnly`, the virtual
    `void parse(const string&)` is `parseWithValue` (the spec's names for
    the two overloads).  The `ofstream` variant's `val.open(opt)` is
    abstracted as recording the path of the last open call.
  * `istringstream >> val` for the generic numeric variant follows the
    C++11 `num_get` contract (the header requires C++11 via `std::array`):
    skip leading stream whitespace, read a maximal digit run, and on
    conversion failure STORE 0 into the variable (pre-C++11 left it
    unchanged; C++11 [facet.num.get.virtuals] stores 0 and sets failbit).
  * The cursor loop is `parseArgs` over the argument suffix starting at
    index 1; it returns the number of consumed tokens, and
    `options.parse argv reg = 1 + consumed` is the returned cursor index,
    exactly the loop's final `i`.  The loop guard `i < argc` is the
    nonemptiness of the remaining suffix and `i < argc-1` ("a value token
    exists") is the nonemptiness of its tail.
-/

namespace options

/-- The four `typed_option<T>` variants of tools.h, carrying the current
value of the bound variable.  `boolOpt` is `typed_option<bool>`,
`stringOpt` is `typed_option<std::string>`, `natOpt` instantiates the
generic numeric `typed_option<T>`, and `fileOpt` is
`typed_option<std::ofstream>` (recording the path of the last `open`). -/
inductive OptVal : Type where
  | boolOpt (val : Bool)
  | stringOpt (val : String)
  | natOpt (val : Nat)
  | fileOpt (opened : Option String)
  deriving DecidableEq, Repr

/-- `store<>::flags` together with the bound variables: a finite map from
flag name to the handle's current state.  Keys are unique in `std::map`;
lookup is first-match. -/
abbrev Registry : Type := List (String × OptVal)

/-- `std::map::find`: exact-match lookup of a flag name. -/
def findFlag : Registry → String → Option OptVal
  | [], _ => none
  | (k, v) :: rest, name => if k = name then some v else findFlag rest name

/-- Mutation of the bound variable behind the handle registered under
`name` (the handle holds a reference, so writing through it updates the
registry's view of that variable). -/
def updateReg : Registry → String → OptVal → Registry
  | [], _, _ => []
  | (k, v) :: rest, name, nv =>
      if k = name then (k, nv) :: rest else (k, v) :: updateReg rest name nv

/-- The whitespace characters skipped by `istream` formatted extraction
(the `" \t\n\v\f\r"` set of the classic locale). -/
def isStreamSpace (c : Char) : Bool :=
  c = ' ' || c = '\t' || c = '\n' || c = '\x0b' || c = '\x0c' || c = '\r'

/-- `istringstream(s) >> (n : unsigned)`: skip stream whitespace, then read
a maximal nonempty digit run (trailing non-digit characters are left in the
stream and ignored).  `none` is extraction failure. -/
def natFromString (s : String) : Option Nat :=
  let ds := (s.data.dropWhile isStreamSpace).takeWhile Char.isDigit
  if ds = [] then none
  else some (ds.foldl (fun acc c => acc * 10 + (c.toNat - '0'.toNat)) 0)

/-- The virtual `bool parse()` of the option handle: returns whether a
value token must still be consumed, and the (possibly mutated) bound
variable.  Only `typed_option<bool>` mutates here (`val = true`) and it
returns `false`; every other variant returns `true` untouched. -/
def parseFlagOnly : OptVal → Bool × OptVal
  | OptVal.boolOpt _ => (false, OptVal.boolOpt true)
  | OptVal.stringOpt v => (true, OptVal.stringOpt v)
  | OptVal.natOpt v => (true, OptVal.natOpt v)
  | OptVal.fileOpt v => (true, OptVal.fileOpt v)

/-- The virtual `void parse(const std::string & opt)` of the option handle:
type-specific conversion and mutation of the bound variable.
`typed_option<bool>` is a no-op; `typed_option<std::string>` assigns the
raw token verbatim; the generic numeric variant is `istringstream >> val`
with the C++11 store-0-on-failure contract; the `ofstream` variant opens
the named file. -/
def parseWithValue : OptVal → String → OptVal
  | OptVal.boolOpt v, _ => OptVal.boolOpt v
  | OptVal.stringOpt _, raw => OptVal.stringOpt raw
  | OptVal.natOpt _, raw => OptVal.natOpt ((natFromString raw).getD 0)
  | OptVal.fileOpt _, raw => OptVal.fileOpt (some raw)

/-- The body of the cursor loop of `options::parse`, acting on the suffix
of `argv` from the cursor on.  Returns the number of tokens consumed and
the final registry.  `argv[i][0] == '-'` is the head-character test (an
empty token has `argv[i][0] == '\0'` and stops the loop), `argv[i]+1` is
`String.mk tok.data.tail`, and `i < argc-1` is the nonemptiness of the
remaining tail. -/
def parseArgs (reg : Registry) : List String → Nat × Registry
  | [] => (0, reg)
  | tok :: rest =>
    if tok.data.head? = some '-' then
      match findFlag reg (String.mk tok.data.tail) with
      | none =>
          ((parseArgs reg rest).1 + 1, (parseArgs reg rest).2)
      | some o =>
          if (parseFlagOnly o).1 then
            match rest with
            | [] => (1, updateReg reg (String.mk tok.data.tail) (parseFlagOnly o).2)
            | v :: rest2 =>
                ((parseArgs (updateReg (updateReg reg (String.mk tok.data.tail) (parseFlagOnly o).2)
                    (String.mk tok.data.tail) (parseWithValue (parseFlagOnly o).2 v)) rest2).1 + 1 + 1,
                 (parseArgs (updateReg (updateReg reg (String.mk tok.data.tail) (parseFlagOnly o).2)
                    (String.mk tok.data.tail) (parseWithValue (parseFlagOnly o).2 v)) rest2).2)
          else
            ((parseArgs (updateReg reg (String.mk tok.data.tail) (parseFlagOnly o).2) rest).1 + 1,
             (parseArgs (updateReg reg (String.mk tok.data.tail) (parseFlagOnly o).2) rest).2)
    else (0, reg)

/-- `options::parse(argc, argv)`: the cursor starts at index 1 (skipping
the program name) and the final cursor index is returned together with the
final registry state. -/
def parse (argv : List String) (reg : Registry) : Nat × Registry :=
  let r := parseArgs reg (argv.drop 1)
  (1 + r.1, r.2)

/-- The stripped names the loop resolves in the registry at its cursor
positions (successful `store<>::flags.find` calls), mirroring `parseArgs`
step for step.  Unknown flag tokens, value tokens and everything from the
first non-flag token on are not resolved. -/
def resolvedFlags (reg : Registry) : List String → List String
  | [] => []
  | tok :: rest =>
    if tok.data.head? = some '-' then
      match findFlag reg (String.mk tok.data.tail) with
      | none => resolvedFlags reg rest
      | some o =>
          if (parseFlagOnly o).1 then
            match rest with
            | [] => [String.mk tok.data.tail]
            | v :: rest2 =>
                String.mk tok.data.tail ::
                  resolvedFlags (updateReg (updateReg reg (String.mk tok.data.tail) (parseFlagOnly o).2)
                    (String.mk tok.data.tail) (parseWithValue (parseFlagOnly o).2 v)) rest2
          else
            String.mk tok.data.tail ::
              resolvedFlags (updateReg reg (String.mk tok.data.tail) (parseFlagOnly o).2) rest
    else []

/-- The command-line token for a registered name: the name prefixed with
the flag-prefix character. -/
def flagTok (name : String) : String := String.mk ('-' :: name.data)

theorem flagTok_head (name : String) : (flagTok name).data.head? = some '-' := rfl

theorem flagTok_tail (name : String) : String.mk (flagTok name).data.tail = name := rfl

theorem findFlag_updateReg_ne (reg : Registry) (k name : String) (v : OptVal)
    (h : ¬ k = name) :
    findFlag (updateReg reg k v) name = findFlag reg name := by
  induction reg with
  | nil => rfl
  | cons p rest ih =>
      obtain ⟨k1, v1⟩ := p
      by_cases hk : k1 = k
      · subst hk
        simp only [updateReg, if_pos rfl, findFlag]
        simp [h]
      · simp only [updateReg, if_neg hk, findFlag]
        by_cases hn : k1 = name
        · simp [hn]
        · simp [hn, ih]

theorem findFlag_updateReg_self (reg : Registry) (name : String) (v0 v : OptVal)
    (h : findFlag reg name = some v0) :
    findFlag (updateReg reg name v) name = some v := by
  induction reg with
  | nil => simp [findFlag] at h
  | cons p rest ih =>
      obtain ⟨k1, v1⟩ := p
      by_cases hk : k1 = name
      · subst hk
        simp [updateReg, findFlag]
      · simp only [findFlag, if_neg hk] at h
        simp only [updateReg, if_neg hk, findFlag, if_neg hk]
        exact ih h

theorem updateReg_self (reg : Registry) (name : String) (v : OptVal)
    (h : findFlag reg name = some v) : updateReg reg name v = reg := by
  induction reg with
  | nil => rfl
  | cons p rest ih =>
      obtain ⟨k1, v1⟩ := p
      by_cases hk : k1 = name
      · subst hk
        simp only [findFlag] at h
        simp at h
        subst h
        simp [updateReg]
      · simp only [findFlag, if_neg hk] at h
        simp [updateReg, if_neg hk, ih h]

/-- A value-requiring handle (virtual `parse()` returning `true`) performs
no mutation in `parse()`. -/
theorem parseFlagOnly_true (o : OptVal) (h : (parseFlagOnly o).1 = true) :
    (parseFlagOnly o).2 = o := by
  cases o <;> simp [parseFlagOnly] at h ⊢

theorem parseArgs_nil (reg : Registry) : parseArgs reg [] = (0, reg) := rfl

theorem parseArgs_cons_nonflag (reg : Registry) (tok : String) (rest : List String)
    (h : ¬ tok.data.head? = some '-') :
    parseArgs reg (tok :: rest) = (0, reg) := by
  simp [parseArgs, h]

theorem parseArgs_cons_unknown (reg : Registry) (tok : String) (rest : List String)
    (h1 : tok.data.head? = some '-')
    (h2 : findFlag reg (String.mk tok.data.tail) = none) :
    parseArgs reg (tok :: rest)
      = ((parseArgs reg rest).1 + 1, (parseArgs reg rest).2) := by
  simp [parseArgs, h1, h2]

theorem parseArgs_cons_found_flagOnly (reg : Registry) (tok : String) (rest : List String)
    (o : OptVal)
    (h1 : tok.data.head? = some '-')
    (h2 : findFlag reg (String.mk tok.data.tail) = some o)
    (h3 : (parseFlagOnly o).1 = false) :
    parseArgs reg (tok :: rest)
      = ((parseArgs (updateReg reg (String.mk tok.data.tail) (parseFlagOnly o).2) rest).1 + 1,
         (parseArgs (updateReg reg (String.mk tok.data.tail) (parseFlagOnly o).2) rest).2) := by
  cases rest <;> simp [parseArgs, h1, h2, h3]

theorem parseArgs_cons_found_last (reg : Registry) (tok : String) (o : OptVal)
    (h1 : tok.data.head? = some '-')
    (h2 : findFlag reg (String.mk tok.data.tail) = some o)
    (h3 : (parseFlagOnly o).1 = true) :
    parseArgs reg [tok]
      = (1, updateReg reg (String.mk tok.data.tail) (parseFlagOnly o).2) := by
  simp [parseArgs, h1, h2, h3]

theorem parseArgs_cons_found_value (reg : Registry) (tok v : String) (rest2 : List String)
    (o : OptVal)
    (h1 : tok.data.head? = some '-')
    (h2 : findFlag reg (String.mk tok.data.tail) = some o)
    (h3 : (parseFlagOnly o).1 = true) :
    parseArgs reg (tok :: v :: rest2)
      = ((parseArgs (updateReg (updateReg reg (String.mk tok.data.tail) (parseFlagOnly o).2)
            (String.mk tok.data.tail) (parseWithValue (parseFlagOnly o).2 v)) rest2).1 + 1 + 1,
         (parseArgs (updateReg (updateReg reg (String.mk tok.data.tail) (parseFlagOnly o).2)
            (String.mk tok.data.tail) (parseWithValue (parseFlagOnly o).2 v)) rest2).2) := by
  simp [parseArgs, h1, h2, h3]



/-- A token whose first character is the flag prefix is the flag token of
its stripped name. -/
theorem eq_flagTok_of_head (t : String) (h1 : t.data.head? = some '-') :
    t = flagTok (String.mk t.data.tail) := by
  cases hd : t.data with
  | nil => rw [hd] at h1; simp at h1
  | cons c cs =>
      rw [hd] at h1
      simp only [List.head?] at h1
      cases h1
      show t = String.mk ('-' :: cs)
      rw [← hd]

theorem parseArgs_le_length (reg : Registry) (args : List String) :
    (parseArgs reg args).1 ≤ args.length := by
  induction reg, args using parseArgs.induct with
  | case1 reg => simp [parseArgs]
  | case2 reg t rest h1 h2 ih =>
      rw [parseArgs_cons_unknown reg t rest h1 h2]
      simpa using ih
  | case3 reg t h1 o h2 h3 =>
      rw [parseArgs_cons_found_last reg t o h1 h2 h3]
      simp
  | case4 reg t h1 o h2 h3 v rest2 ih =>
      rw [parseArgs_cons_found_value reg t v rest2 o h1 h2 h3]
      simp only [List.length_cons]
      omega
  | case5 reg t rest h1 o h2 h3 ih =>
      have h3f : (parseFlagOnly o).1 = false := by simpa using h3
      rw [parseArgs_cons_found_flagOnly reg t rest o h1 h2 h3f]
      simp only [List.length_cons]
      omega
  | case6 reg t rest h1 =>
      rw [parseArgs_cons_nonflag reg t rest h1]
      simp

theorem parseArgs_stop (reg : Registry) (args : List String) :
    ∀ tok, args[(parseArgs reg args).1]? = some tok → ¬ tok.data.head? = some '-' := by
  induction reg, args using parseArgs.induct with
  | case1 reg => intro tok h; simp [parseArgs] at h
  | case2 reg t rest h1 h2 ih =>
      intro tok h
      rw [parseArgs_cons_unknown reg t rest h1 h2] at h
      simp only [List.getElem?_cons_succ] at h
      exact ih tok h
  | case3 reg t h1 o h2 h3 =>
      intro tok h
      rw [parseArgs_cons_found_last reg t o h1 h2 h3] at h
      simp at h
  | case4 reg t h1 o h2 h3 v rest2 ih =>
      intro tok h
      rw [parseArgs_cons_found_value reg t v rest2 o h1 h2 h3] at h
      simp only [List.getElem?_cons_succ] at h
      exact ih tok h
  | case5 reg t rest h1 o h2 h3 ih =>
      intro tok h
      have h3f : (parseFlagOnly o).1 = false := by simpa using h3
      rw [parseArgs_cons_found_flagOnly reg t rest o h1 h2 h3f] at h
      simp only [List.getElem?_cons_succ] at h
      exact ih tok h
  | case6 reg t rest h1 =>
      intro tok h
      rw [parseArgs_cons_nonflag reg t rest h1] at h
      simp only [List.getElem?_cons_zero, Option.some.injEq] at h
      subst h
      exact h1

theorem parseArgs_frame (reg : Registry) (args : List String) :
    ∀ (name : String) (v : OptVal), findFlag reg name = some v →
      ¬ name ∈ resolvedFlags reg args →
      findFlag (parseArgs reg args).2 name = some v := by
  induction reg, args using parseArgs.induct with
  | case1 reg => intro name v hv _; simpa [parseArgs] using hv
  | case2 reg t rest h1 h2 ih =>
      intro name v hv hres
      rw [parseArgs_cons_unknown reg t rest h1 h2]
      simp only [resolvedFlags, h1, h2, if_pos rfl] at hres
      exact ih name v hv hres
  | case3 reg t h1 o h2 h3 =>
      intro name v hv hres
      rw [parseArgs_cons_found_last reg t o h1 h2 h3]
      simp [resolvedFlags, h1, h2, h3] at hres
      rw [findFlag_updateReg_ne _ _ _ _ (fun e => hres e.symm)]
      exact hv
  | case4 reg t h1 o h2 h3 v0 rest2 ih =>
      intro name v hv hres
      rw [parseArgs_cons_found_value reg t v0 rest2 o h1 h2 h3]
      simp [resolvedFlags, h1, h2, h3, not_or] at hres
      obtain ⟨hne, hres2⟩ := hres
      refine ih name v ?_ hres2
      rw [findFlag_updateReg_ne _ _ _ _ (fun e => hne e.symm),
          findFlag_updateReg_ne _ _ _ _ (fun e => hne e.symm)]
      exact hv
  | case5 reg t rest h1 o h2 h3 ih =>
      intro name v hv hres
      have h3f : (parseFlagOnly o).1 = false := by simpa using h3
      rw [parseArgs_cons_found_flagOnly reg t rest o h1 h2 h3f]
      simp [resolvedFlags, h1, h2, h3f, not_or] at hres
      obtain ⟨hne, hres2⟩ := hres
      refine ih name v ?_ hres2
      rw [findFlag_updateReg_ne _ _ _ _ (fun e => hne e.symm)]
      exact hv
  | case6 reg t rest h1 =>
      intro name v hv _
      rw [parseArgs_cons_nonflag reg t rest h1]
      exact hv

theorem resolvedFlags_mem (reg : Registry) (args : List String) :
    ∀ name, name ∈ resolvedFlags reg args → flagTok name ∈ args := by
  induction reg, args using parseArgs.induct with
  | case1 reg => intro name h; simp [resolvedFlags] at h
  | case2 reg t rest h1 h2 ih =>
      intro name h
      simp only [resolvedFlags, h1, h2, if_pos rfl] at h
      exact List.mem_cons_of_mem _ (ih name h)
  | case3 reg t h1 o h2 h3 =>
      intro name h
      simp [resolvedFlags, h1, h2, h3] at h
      subst h
      rw [← eq_flagTok_of_head t h1]
      exact List.mem_cons_self _ _
  | case4 reg t h1 o h2 h3 v0 rest2 ih =>
      intro name h
      simp [resolvedFlags, h1, h2, h3] at h
      rcases h with h | h
      · subst h
        rw [← eq_flagTok_of_head t h1]
        exact List.mem_cons_self _ _
      · exact List.mem_cons_of_mem _ (List.mem_cons_of_mem _ (ih name h))
  | case5 reg t rest h1 o h2 h3 ih =>
      intro name h
      have h3f : (parseFlagOnly o).1 = false := by simpa using h3
      simp [resolvedFlags, h1, h2, h3f] at h
      rcases h with h | h
      · subst h
        rw [← eq_flagTok_of_head t h1]
        exact List.mem_cons_self _ _
      · exact List.mem_cons_of_mem _ (ih name h)
  | case6 reg t rest h1 =>
      intro name h
      simp [resolvedFlags, h1] at h



theorem add_two_eq (n : Nat) : n + 1 + 1 = n + 2 := rfl

/-- Claim C1: `parse` starts its cursor at index 1, stops at the first
token at the cursor that does not begin with the prefix character `-`
(or at the end of the sequence), and returns that cursor index as the
index of the first unconsumed (positional) argument. -/
theorem parse_cursor_start_and_stop (argv : List String) (reg : Registry) :
    parse argv reg
      = (1 + (parseArgs reg (argv.drop 1)).1, (parseArgs reg (argv.drop 1)).2)
    ∧ 1 ≤ (parse argv reg).1
    ∧ (parse argv reg).1 ≤ max argv.length 1
    ∧ ∀ tok, argv[(parse argv reg).1]? = some tok → ¬ tok.data.head? = some '-' := by
  refine ⟨rfl, Nat.le_add_right 1 _, ?_, ?_⟩
  · have h := parseArgs_le_length reg (argv.drop 1)
    have hl : (argv.drop 1).length = argv.length - 1 := List.length_drop 1 argv
    show 1 + (parseArgs reg (argv.drop 1)).1 ≤ max argv.length 1
    omega
  · intro tok h
    apply parseArgs_stop reg (argv.drop 1) tok
    rw [List.getElem?_drop argv 1]
    exact h

/-- Witness for C1 at a concrete input: parsing `["prog", "pos"]` with an
empty registry stops at index 1, whose token `"pos"` does not begin
with `-`. -/
theorem parse_cursor_start_and_stop_witness :
    ¬ ("pos" : String).data.head? = some '-' :=
  (parse_cursor_start_and_stop ["prog", "pos"] []).2.2.2 "pos" (by decide)

/-- Claim C2, counterexample: with a value-bearing flag `a` registered
(bound to a numeric variable) and no flag `b`, parsing
`["prog", "-a", "1", "positional", "-b", "2"]` returns cursor index 3, not
2, and index 2 holds `"1"`, not `"positional"` (which sits at index 3):
the claimed "cursor index 2, pointing at `positional`" is false. -/
theorem parse_example_cursor_ne_two :
    (parse ["prog", "-a", "1", "positional", "-b", "2"] [("a", OptVal.natOpt 0)]).1 = 3
    ∧ ¬ (parse ["prog", "-a", "1", "positional", "-b", "2"] [("a", OptVal.natOpt 0)]).1 = 2
    ∧ ["prog", "-a", "1", "positional", "-b", "2"][3]? = some "positional"
    ∧ ¬ ["prog", "-a", "1", "positional", "-b", "2"][2]? = some "positional" := by
  decide

/-- Claim C2 as amended: parsing
`["prog", "-a", "1", "positional", "-b", "2"]` with a value-bearing flag
`a` registered and no flag `b` registered returns cursor index 3, pointing
at the token `"positional"`: parsing stops at the first non-flag token at
the cursor regardless of later flags. -/
theorem parse_example_stops_at_positional (reg : Registry) (o : OptVal)
    (ha : findFlag reg "a" = some o) (hval : (parseFlagOnly o).1 = true)
    (hb : findFlag reg "b" = none) :
    (parse ["prog", "-a", "1", "positional", "-b", "2"] reg).1 = 3
    ∧ ["prog", "-a", "1", "positional", "-b", "2"][3]? = some "positional" := by
  constructor
  · show 1 + (parseArgs reg ["-a", "1", "positional", "-b", "2"]).1 = 3
    have step : parseArgs reg ["-a", "1", "positional", "-b", "2"]
        = ((parseArgs (updateReg (updateReg reg "a" (parseFlagOnly o).2) "a"
              (parseWithValue (parseFlagOnly o).2 "1")) ["positional", "-b", "2"]).1 + 1 + 1,
           (parseArgs (updateReg (updateReg reg "a" (parseFlagOnly o).2) "a"
              (parseWithValue (parseFlagOnly o).2 "1")) ["positional", "-b", "2"]).2) :=
      parseArgs_cons_found_value reg "-a" "1" ["positional", "-b", "2"] o rfl ha hval
    rw [step,
        parseArgs_cons_nonflag _ "positional" ["-b", "2"] (by decide)]
    rfl
  · rfl

/-- Witness for the amended C2 at a concrete registry. -/
theorem parse_example_stops_at_positional_witness :
    (parse ["prog", "-a", "1", "positional", "-b", "2"] [("a", OptVal.natOpt 0)]).1 = 3
    ∧ ["prog", "-a", "1", "positional", "-b", "2"][3]? = some "positional" :=
  parse_example_stops_at_positional [("a", OptVal.natOpt 0)] (OptVal.natOpt 0)
    (by decide) (by decide) (by decide)

/-- Claim C3: a flag token whose stripped name is absent from the registry
makes `parse` advance the cursor by exactly 1, consuming no value token and
mutating nothing; in particular parsing `["prog", "-z", "1"]` with no flag
`z` registered returns cursor 2 pointing at `"1"` with the registry
untouched. -/
theorem unknown_flag_skips_one (reg : Registry) (tok : String) (rest : List String)
    (h1 : tok.data.head? = some '-')
    (h2 : findFlag reg (String.mk tok.data.tail) = none) :
    parseArgs reg (tok :: rest) = ((parseArgs reg rest).1 + 1, (parseArgs reg rest).2)
    ∧ ∀ reg2 : Registry, findFlag reg2 "z" = none →
        parse ["prog", "-z", "1"] reg2 = (2, reg2) := by
  refine ⟨parseArgs_cons_unknown reg tok rest h1 h2, ?_⟩
  intro reg2 hz
  show (1 + (parseArgs reg2 ["-z", "1"]).1, (parseArgs reg2 ["-z", "1"]).2) = (2, reg2)
  rw [parseArgs_cons_unknown reg2 "-z" ["1"] rfl hz,
      parseArgs_cons_nonflag reg2 "1" [] (by decide)]
  rfl

/-- Witness for C3 at concrete inputs. -/
theorem unknown_flag_skips_one_witness :
    parseArgs [] ["-z", "1"] = ((parseArgs [] ["1"]).1 + 1, (parseArgs [] ["1"]).2)
    ∧ parse ["prog", "-z", "1"] [("a", OptVal.natOpt 0)] = (2, [("a", OptVal.natOpt 0)]) :=
  ⟨(unknown_flag_skips_one [] "-z" ["1"] (by decide) (by decide)).1,
   (unknown_flag_skips_one [] "-z" ["1"] (by decide) (by decide)).2
     [("a", OptVal.natOpt 0)] (by decide)⟩

/-- Claim C4: for a registered boolean flag, absence of its token from the
command line leaves the bound variable at its prior value; presence sets it
to `true` while consuming exactly one argument slot, and the mutation is
performed inside the virtual `parse()` (`parseFlagOnly`), which returns
`false`. -/
theorem bool_flag_semantics :
    (∀ b : Bool, parseFlagOnly (OptVal.boolOpt b) = (false, OptVal.boolOpt true))
    ∧ (∀ (reg : Registry) (name : String) (b : Bool) (rest : List String),
        findFlag reg name = some (OptVal.boolOpt b) →
        parseArgs reg (flagTok name :: rest)
          = ((parseArgs (updateReg reg name (OptVal.boolOpt true)) rest).1 + 1,
             (parseArgs (updateReg reg name (OptVal.boolOpt true)) rest).2))
    ∧ (∀ (argv : List String) (reg : Registry) (name : String) (b : Bool),
        findFlag reg name = some (OptVal.boolOpt b) →
        ¬ flagTok name ∈ argv →
        findFlag (parse argv reg).2 name = some (OptVal.boolOpt b)) := by
  refine ⟨fun b => rfl, ?_, ?_⟩
  · intro reg name b rest h
    exact parseArgs_cons_found_flagOnly reg (flagTok name) rest (OptVal.boolOpt b) rfl h rfl
  · intro argv reg name b h hmem
    have hres : ¬ name ∈ resolvedFlags reg (argv.drop 1) := fun hin =>
      hmem (List.drop_subset 1 argv (resolvedFlags_mem reg (argv.drop 1) name hin))
    exact parseArgs_frame reg (argv.drop 1) name (OptVal.boolOpt b) h hres

/-- Witness for C4 at concrete inputs. -/
theorem bool_flag_semantics_witness :
    parseFlagOnly (OptVal.boolOpt false) = (false, OptVal.boolOpt true)
    ∧ parseArgs [("y", OptVal.boolOpt false)] [flagTok "y"]
        = ((parseArgs (updateReg [("y", OptVal.boolOpt false)] "y" (OptVal.boolOpt true)) []).1 + 1,
           (parseArgs (updateReg [("y", OptVal.boolOpt false)] "y" (OptVal.boolOpt true)) []).2)
    ∧ findFlag (parse ["prog", "pos"] [("y", OptVal.boolOpt false)]).2 "y"
        = some (OptVal.boolOpt false) :=
  ⟨bool_flag_semantics.1 false,
   bool_flag_semantics.2.1 [("y", OptVal.boolOpt false)] "y" false [] (by decide),
   bool_flag_semantics.2.2 ["prog", "pos"] [("y", OptVal.boolOpt false)] "y" false
     (by decide) (by decide)⟩

/-- Claim C5: a registered string flag given the consecutive tokens
`-name value` at the cursor stores the token `value` verbatim in the bound
variable and advances the cursor by exactly 2. -/
theorem string_flag_consumes_value (reg : Registry) (name s v : String) (rest : List String)
    (h : findFlag reg name = some (OptVal.stringOpt s)) :
    parseArgs reg (flagTok name :: v :: rest)
      = ((parseArgs (updateReg reg name (OptVal.stringOpt v)) rest).1 + 2,
         (parseArgs (updateReg reg name (OptVal.stringOpt v)) rest).2)
    ∧ findFlag (updateReg reg name (OptVal.stringOpt v)) name
        = some (OptVal.stringOpt v) := by
  constructor
  · have step : parseArgs reg (flagTok name :: v :: rest)
        = ((parseArgs (updateReg (updateReg reg name (OptVal.stringOpt s)) name
              (OptVal.stringOpt v)) rest).1 + 1 + 1,
           (parseArgs (updateReg (updateReg reg name (OptVal.stringOpt s)) name
              (OptVal.stringOpt v)) rest).2) :=
      parseArgs_cons_found_value reg (flagTok name) v rest (OptVal.stringOpt s) rfl h rfl
    rw [updateReg_self reg name (OptVal.stringOpt s) h] at step
    rw [step, add_two_eq]
  · exact findFlag_updateReg_self reg name (OptVal.stringOpt s) (OptVal.stringOpt v) h

/-- Witness for C5 at concrete inputs. -/
theorem string_flag_consumes_value_witness :
    parseArgs [("t", OptVal.stringOpt "")] [flagTok "t", "hello,world!"]
      = ((parseArgs (updateReg [("t", OptVal.stringOpt "")] "t"
            (OptVal.stringOpt "hello,world!")) []).1 + 2,
         (parseArgs (updateReg [("t", OptVal.stringOpt "")] "t"
            (OptVal.stringOpt "hello,world!")) []).2)
    ∧ findFlag (updateReg [("t", OptVal.stringOpt "")] "t"
          (OptVal.stringOpt "hello,world!")) "t" = some (OptVal.stringOpt "hello,world!") :=
  string_flag_consumes_value [("t", OptVal.stringOpt "")] "t" "" "hello,world!" [] (by decide)

/-- Claim C6, counterexample: with C++11 stream-extraction semantics
(mandated by this header's use of `std::array`), a failed numeric
conversion stores 0 into the bound variable rather than leaving it
unchanged: parsing `["prog", "-n", "abc"]` with `n` bound to 5 ends with
the variable holding 0, not 5. -/
theorem numeric_conversion_failure_stores_zero :
    parse ["prog", "-n", "abc"] [("n", OptVal.natOpt 5)] = (3, [("n", OptVal.natOpt 0)])
    ∧ ¬ (parse ["prog", "-n", "abc"] [("n", OptVal.natOpt 5)]).2 = [("n", OptVal.natOpt 5)] := by
  decide

/-- Claim C6 as amended: a registered generic numeric flag given
`-name 42` stores 42 into the bound variable; given `-name abc` (a value
token failing textual conversion) it stores 0 (the C++11 extraction-failure
value), and no error or exception is surfaced to the caller — the parse
completes normally, advancing the cursor by 2 in both cases. -/
theorem numeric_flag_semantics (reg : Registry) (name : String) (k : Nat) (rest : List String)
    (h : findFlag reg name = some (OptVal.natOpt k)) :
    parseArgs reg (flagTok name :: "42" :: rest)
      = ((parseArgs (updateReg reg name (OptVal.natOpt 42)) rest).1 + 2,
         (parseArgs (updateReg reg name (OptVal.natOpt 42)) rest).2)
    ∧ parseArgs reg (flagTok name :: "abc" :: rest)
      = ((parseArgs (updateReg reg name (OptVal.natOpt 0)) rest).1 + 2,
         (parseArgs (updateReg reg name (OptVal.natOpt 0)) rest).2)
    ∧ natFromString "42" = some 42 ∧ natFromString "abc" = none := by
  refine ⟨?_, ?_, by decide, by decide⟩
  · have step : parseArgs reg (flagTok name :: "42" :: rest)
        = ((parseArgs (updateReg (updateReg reg name (OptVal.natOpt k)) name
              (OptVal.natOpt 42)) rest).1 + 1 + 1,
           (parseArgs (updateReg (updateReg reg name (OptVal.natOpt k)) name
              (OptVal.natOpt 42)) rest).2) :=
      parseArgs_cons_found_value reg (flagTok name) "42" rest (OptVal.natOpt k) rfl h rfl
    rw [updateReg_self reg name (OptVal.natOpt k) h] at step
    rw [step, add_two_eq]
  · have step : parseArgs reg (flagTok name :: "abc" :: rest)
        = ((parseArgs (updateReg (updateReg reg name (OptVal.natOpt k)) name
              (OptVal.natOpt 0)) rest).1 + 1 + 1,
           (parseArgs (updateReg (updateReg reg name (OptVal.natOpt k)) name
              (OptVal.natOpt 0)) rest).2) :=
      parseArgs_cons_found_value reg (flagTok name) "abc" rest (OptVal.natOpt k) rfl h rfl
    rw [updateReg_self reg name (OptVal.natOpt k) h] at step
    rw [step, add_two_eq]

/-- Witness for the amended C6 at a concrete registry. -/
theorem numeric_flag_semantics_witness :
    parseArgs [("n", OptVal.natOpt 5)] [flagTok "n", "42"]
      = ((parseArgs (updateReg [("n", OptVal.natOpt 5)] "n" (OptVal.natOpt 42)) []).1 + 2,
         (parseArgs (updateReg [("n", OptVal.natOpt 5)] "n" (OptVal.natOpt 42)) []).2)
    ∧ parseArgs [("n", OptVal.natOpt 5)] [flagTok "n", "abc"]
      = ((parseArgs (updateReg [("n", OptVal.natOpt 5)] "n" (OptVal.natOpt 0)) []).1 + 2,
         (parseArgs (updateReg [("n", OptVal.natOpt 5)] "n" (OptVal.natOpt 0)) []).2)
    ∧ natFromString "42" = some 42 ∧ natFromString "abc" = none :=
  numeric_flag_semantics [("n", OptVal.natOpt 5)] "n" 5 [] (by decide)

/-- Claim C7: a registered value-requiring (non-boolean) flag whose token
is the last element of the argument sequence consumes no value token,
leaves the registry (hence that flag's bound variable) exactly as it was,
and reports no error: the loop simply ends with the cursor one past the
flag token. -/
theorem value_flag_at_end_unchanged (reg : Registry) (name : String) (o : OptVal)
    (h1 : findFlag reg name = some o) (h2 : (parseFlagOnly o).1 = true) :
    parseArgs reg [flagTok name] = (1, reg) := by
  have e : (parseFlagOnly o).2 = o := parseFlagOnly_true o h2
  have step : parseArgs reg [flagTok name] = (1, updateReg reg name (parseFlagOnly o).2) :=
    parseArgs_cons_found_last reg (flagTok name) o rfl h1 h2
  rw [e] at step
  rw [step, updateReg_self reg name o h1]

/-- Witness for C7 at a concrete registry. -/
theorem value_flag_at_end_unchanged_witness :
    parseArgs [("t", OptVal.stringOpt "keep")] [flagTok "t"]
      = (1, [("t", OptVal.stringOpt "keep")]) :=
  value_flag_at_end_unchanged [("t", OptVal.stringOpt "keep")] "t"
    (OptVal.stringOpt "keep") (by decide) (by decide)

/-- Claim C9: `parse` always terminates as a single bounded pass: it is a
total function (structural recursion on the argument list, the cursor
advancing by 1 or 2 on every iteration), and the returned cursor index lies
between its start 1 and the sequence length. -/
theorem parse_terminates_single_pass (argv : List String) (reg : Registry) :
    (parseArgs reg (argv.drop 1)).1 ≤ (argv.drop 1).length
    ∧ 1 ≤ (parse argv reg).1
    ∧ (parse argv reg).1 ≤ max argv.length 1 := by
  refine ⟨parseArgs_le_length reg (argv.drop 1), Nat.le_add_right 1 _, ?_⟩
  have h := parseArgs_le_length reg (argv.drop 1)
  have hl : (argv.drop 1).length = argv.length - 1 := List.length_drop 1 argv
  show 1 + (parseArgs reg (argv.drop 1)).1 ≤ max argv.length 1
  omega

/-- Claim C10 (frame property): a registered flag whose name, prefixed
with `-`, never appears among the tokens the parser resolves at its cursor
(before the first non-flag token) keeps exactly its prior value: `parse`
mutates only variables of flags it actually matched. -/
theorem parse_frame_unresolved (argv : List String) (reg : Registry)
    (name : String) (v : OptVal)
    (hreg : findFlag reg name = some v)
    (hres : ¬ name ∈ resolvedFlags reg (argv.drop 1)) :
    findFlag (parse argv reg).2 name = some v :=
  parseArgs_frame reg (argv.drop 1) name v hreg hres

/-- Witness for C10 at a concrete input: `b` is registered but never
resolved while `a` is matched, and `b` keeps its value. -/
theorem parse_frame_unresolved_witness :
    findFlag [("a", OptVal.stringOpt ""), ("b", OptVal.natOpt 3)] "b" = some (OptVal.natOpt 3)
    ∧ ¬ "b" ∈ resolvedFlags [("a", OptVal.stringOpt ""), ("b", OptVal.natOpt 3)]
        (["prog", "-a", "x", "pos"].drop 1)
    ∧ findFlag (parse ["prog", "-a", "x", "pos"]
        [("a", OptVal.stringOpt ""), ("b", OptVal.natOpt 3)]).2 "b" = some (OptVal.natOpt 3) :=
  ⟨by decide, by decide,
   parse_frame_unresolved ["prog", "-a", "x", "pos"]
     [("a", OptVal.stringOpt ""), ("b", OptVal.natOpt 3)] "b" (OptVal.natOpt 3)
     (by decide) (by decide)⟩

end options
